import Mathlib

/-!
Verification of the kmz-cleaner pipeline (src/kmz-cleaner.py).

The script is embedded shallowly:
* file names and file text are `List Char`;
* a file's content is an `FData`: raw text, a well-formed XML document
  (structured, standing for bytes that parse), or a zip archive (a list of
  named entries, standing for bytes in zip format);
* the filesystem pieces the script touches (the script folder listing, the
  shared `temp_extract` scratch area, a per-item extraction directory, the
  `processed_kmz` output folder) are association lists from names to `FData`;
* Python exceptions that the script does not catch are values of `PyError`,
  returned through `Except` / recorded in the run state's `err` field.

Path handling is modeled flat: archive entry names carry no directory
components (the layout the script expects is `doc.kml` plus sibling images at
the archive root), and the constant absolute folder prefixes are modeled by
the folder's relative name.  Python's `str.lower` is modeled on ASCII.
-/

/-- ASCII lower-casing of one character, modeling `str.lower` on the
file-name characters the script compares. -/
def lowerChar (c : Char) : Char :=
  if 'A' ≤ c ∧ c ≤ 'Z' then Char.ofNat (c.toNat + 32) else c

/-- Does the second list start with the first (character-exact)? -/
def begB : List Char → List Char → Bool
  | [], _ => true
  | _ :: _, [] => false
  | a :: as, b :: bs => a == b && begB as bs

/-- Does `l` end with `suf`? -/
def endsB (suf l : List Char) : Bool := begB suf.reverse l.reverse

/-- Python `name.lower().endswith(".kmz")`. -/
def endsKmz (nm : List Char) : Bool := endsB ".kmz".toList (nm.map lowerChar)

/-- Python `name.lower().endswith(".zip")`. -/
def endsZip (nm : List Char) : Bool := endsB ".zip".toList (nm.map lowerChar)

/-- Does the pattern `p` occur contiguously anywhere in the list? -/
def hasSub (p : List Char) : List Char → Bool
  | [] => begB p []
  | c :: rest => begB p (c :: rest) || hasSub p rest

/-- Split at the first occurrence of pattern `p`: returns the part before the
occurrence and the part after it (the occurrence itself removed). -/
def splitSub (p : List Char) : List Char → Option (List Char × List Char)
  | [] => if begB p [] then some ([], []) else none
  | c :: rest =>
      if begB p (c :: rest) then some ([], (c :: rest).drop p.length)
      else
        match splitSub p rest with
        | some (a, b) => some (c :: a, b)
        | none => none

/-!
A namespaced XML element: tag, optional text, child elements.  The uniform
`http://www.opengis.net/kml/2.2` namespace of every tag the script queries
is erased.  The child sequence is its own mutual inductive so that the
tree-walking functions below are structurally recursive.
-/
mutual
inductive Xml where
  | elem : List Char → Option (List Char) → XmlL → Xml
inductive XmlL where
  | nil : XmlL
  | cons : Xml → XmlL → XmlL
end

/-- Build a child sequence from a list. -/
def ofL : List Xml → XmlL
  | [] => .nil
  | x :: xs => .cons x (ofL xs)

/-- The child elements of an element. -/
def childrenOf : Xml → XmlL
  | .elem _ _ cs => cs

/-- The `.text` attribute of an element (`none` for an empty element). -/
def textOf : Xml → Option (List Char)
  | .elem _ t _ => t

/-- ElementTree `root.find(".//tag")` over a child sequence: first element
with the tag, in document order, descending into children before siblings. -/
def findIn (tag : List Char) : XmlL → Option Xml
  | .nil => none
  | .cons (Xml.elem t tx cs) rest =>
      if t = tag then some (Xml.elem t tx cs)
      else
        match findIn tag cs with
        | some r => some r
        | none => findIn tag rest

/-- First element with the tag among direct children only, modeling
`elem.find("tag")`. -/
def findChild (tag : List Char) : XmlL → Option Xml
  | .nil => none
  | .cons (Xml.elem t tx cs) rest =>
      if t = tag then some (Xml.elem t tx cs) else findChild tag rest

/-- ElementTree `elem.find(".//t1/t2")`: the first `t2` child of a descendant
`t1` element, in document order. -/
def findPath (t1 t2 : List Char) : XmlL → Option Xml
  | .nil => none
  | .cons (Xml.elem t _ cs) rest =>
      match if t = t1 then findChild t2 cs else none with
      | some r => some r
      | none =>
          match findPath t1 t2 cs with
          | some r => some r
          | none => findPath t1 t2 rest

/-- Content of one file: raw text, a well-formed XML document, or a zip
archive with named entries. -/
inductive FData where
  | text : List Char → FData
  | xml : Xml → FData
  | zip : List (List Char × FData) → FData

/-- A directory: an association list from file names to contents. -/
abbrev Dir := List (List Char × FData)

/-- Look a name up in a directory. -/
def lookupA : Dir → List Char → Option FData
  | [], _ => none
  | (k, v) :: t, n => if k = n then some v else lookupA t n

/-- Write a file into a directory, replacing an existing file of that name
(the overwrite semantics of `extractall` and of opening a file for writing). -/
def writeA : Dir → List Char → FData → Dir
  | [], k, v => [(k, v)]
  | (k0, v0) :: t, k, v =>
      if k0 = k then (k, v) :: t else (k0, v0) :: writeA t k v

/-- `zipfile.extractall`: place every entry of the archive in the directory,
in order, later entries overwriting earlier same-named ones. -/
def extractAll (dest : Dir) (entries : List (List Char × FData)) : Dir :=
  entries.foldl (fun d e => writeA d e.1 e.2) dest

/-- Uncaught Python exceptions the script can die of. -/
inductive PyError where
  /-- `xml.etree.ElementTree.ParseError`: the file is not well-formed XML. -/
  | malformedXml
  /-- `AttributeError`: `.find` returned `None` and `.text` / `.find` was
  taken on it. -/
  | attributeError
  /-- `TypeError`: `os.path.join` applied to `None` (an `<href>` element with
  no text). -/
  | typeError
  /-- `zipfile.BadZipFile`: the file opened as an archive is not one. -/
  | badZipFile
  /-- A file expected on disk was missing when read back. -/
  | ioError
deriving Repr, DecidableEq

/-- `ET.parse`: structured XML parses, anything else raises `ParseError`. -/
def etParse : FData → Except PyError Xml
  | .xml d => .ok d
  | .text _ => .error .malformedXml
  | .zip _ => .error .malformedXml

/-- The fields `parse_kml` returns on its non-skip path: the document name
text, the image reference, and the four bounding-coordinate texts.  An
element that is present but empty has text `none` (Python `None`). -/
structure Found where
  docName : Option (List Char)
  href : List Char
  north : Option (List Char)
  south : Option (List Char)
  east : Option (List Char)
  west : Option (List Char)
deriving Repr

/-- `parse_kml` (src/kmz-cleaner.py lines 71-101) on a `doc.kml` file whose
containing directory is `scr`: `.ok none` is the `return None, None, None`
skip triple, `.error` an uncaught exception.  Steps, in source order: parse;
`.text` of the first `name` descendant (missing element raises
`AttributeError`); first `GroundOverlay` descendant (missing: skip); `.text`
of `.//Icon/href` inside it (missing element raises, `None` text raises
`TypeError` inside `os.path.join`); existence check of the referenced image
(missing: skip); first `LatLonBox` descendant of the overlay and the `.text`
of its direct children `north`/`south`/`east`/`west` (a missing element
raises `AttributeError`). -/
def parse_kml (content : FData) (scr : Dir) : Except PyError (Option Found) :=
  match etParse content with
  | .error e => .error e
  | .ok root =>
      match findIn "name".toList (childrenOf root) with
      | none => .error .attributeError
      | some nameEl =>
          let dn := textOf nameEl
          match findIn "GroundOverlay".toList (childrenOf root) with
          | none => .ok none
          | some go =>
              match findPath "Icon".toList "href".toList (childrenOf go) with
              | none => .error .attributeError
              | some hrefEl =>
                  match textOf hrefEl with
                  | none => .error .typeError
                  | some hr =>
                      match lookupA scr hr with
                      | none => .ok none
                      | some _ =>
                          match findIn "LatLonBox".toList (childrenOf go) with
                          | none => .error .attributeError
                          | some lb =>
                              match findChild "north".toList (childrenOf lb),
                                    findChild "south".toList (childrenOf lb),
                                    findChild "east".toList (childrenOf lb),
                                    findChild "west".toList (childrenOf lb) with
                              | some ne, some se, some ee, some we =>
                                  .ok (some ⟨dn, hr, textOf ne, textOf se,
                                             textOf ee, textOf we⟩)
                              | _, _, _, _ => .error .attributeError

/-! ## The synthesizer (`create_clean_kml`, lines 103-135)

The f-string of the source is transcribed byte-exactly as a concatenation of
the literal segments below with the six interpolated fields.  Note that the
source interpolates the fields with no escaping whatsoever. -/

/-- Literal up to (excluding) the `<name>` of the interpolated document name. -/
def lit0 : List Char :=
  "<?xml version=\"1.0\" encoding=\"UTF-8\"?>\n<kml xmlns=\"http://www.opengis.net/kml/2.2\">\n<Document>\n    ".toList

/-- Literal between `</name>` and the `<href>` open tag. -/
def lit1 : List Char :=
  "\n    <open>1</open>\n\n    <GroundOverlay>\n        <name>Map</name>\n        <drawOrder>100</drawOrder>  <!-- Forces overlay to stay visible on Android -->\n        <Icon>\n            ".toList

/-- Literal between `</href>` and `<LatLonBox>`. -/
def lit2 : List Char := "\n        </Icon>\n        ".toList

/-- Indentation before each coordinate element. -/
def lit3 : List Char := "\n            ".toList

/-- Literal from after `</west>` to the end of the document. -/
def lit7 : List Char :=
  "\n        </LatLonBox>\n        <Lod>\n            <minLodPixels>64</minLodPixels>\n            <maxLodPixels>-1</maxLodPixels>\n        </Lod>\n    </GroundOverlay>\n\n</Document>\n</kml>".toList

/-- The text `create_clean_kml` writes: the f-string of lines 107-132 with
`doc_name`, `image_href`, `north`, `south`, `east`, `west` interpolated
verbatim (no escaping). -/
def kml_text (dn hr n s e w : List Char) : List Char :=
  lit0 ++ "<name>".toList ++ dn ++ "</name>".toList ++
  lit1 ++ "<href>".toList ++ hr ++ "</href>".toList ++
  lit2 ++ "<LatLonBox>".toList ++
  lit3 ++ "<north>".toList ++ n ++ "</north>".toList ++
  lit3 ++ "<south>".toList ++ s ++ "</south>".toList ++
  lit3 ++ "<east>".toList ++ e ++ "</east>".toList ++
  lit3 ++ "<west>".toList ++ w ++ "</west>".toList ++
  lit7

/-- Python's rendering of an f-string field that may be `None`. -/
def optStr : Option (List Char) → List Char
  | none => "None".toList
  | some s => s

/-- `create_clean_kml(output_kml, ...)` writes the synthesized text to the
file `out` of the scratch directory `scr`. -/
def create_clean_kml (scr : Dir) (out : List Char)
    (dn hr : List Char)
    (co : List Char × List Char × List Char × List Char) : Dir :=
  writeA scr out (.text (kml_text dn hr co.1 co.2.1 co.2.2.1 co.2.2.2))

/-- The fixed internal name of the map-description document. -/
def docKmlName : List Char := "doc.kml".toList

/-- The scratch name the synthesized document is written under. -/
def cleanedName : List Char := "cleaned.kml".toList

/-- `repackage_kmz(temp_folder, output_kmz, image_file)` (lines 137-141):
build the output archive with exactly two entries, the scratch file
`cleaned.kml` stored as `doc.kml` and the file named by `image_file` stored
under that same name.  Reading a missing file raises. -/
def repackage_kmz (scr : Dir) (imageFile : List Char) : Except PyError FData :=
  match lookupA scr cleanedName, lookupA scr imageFile with
  | some c, some i => .ok (.zip [(docKmlName, c), (imageFile, i)])
  | _, _ => .error .ioError

/-! ## The pipeline driver (`process_files`, lines 143-203) -/

/-- Observable state of one run: the files of the `processed_kmz` output
folder (log file kept separately), the text of `processed_kmz_log.txt`, and
the uncaught exception that ended the run, if any.  Output writes are modeled
as appends: the input listing the loop iterates over has unique names by
construction, so an overwrite of an existing output never occurs. -/
structure RunState where
  output : List (List Char × FData)
  log : List Char
  err : Option PyError

/-- The header line written to the log before any processing. -/
def headerTxt : List Char := "Processed KMZ Files:\n".toList

/-- The log line of a successfully processed file:
`f"{kmz_file} -> {output_kmz_path}\n"` with the constant output folder
prefix modeled by its relative name. -/
def logLine (nm : List Char) : List Char :=
  nm ++ " -> processed_kmz/".toList ++ nm ++ "\n".toList

/-- Python falsiness of the values tested by
`if not doc_name or not image_href`: `None` and the empty string. -/
def truthy : Option (List Char) → Bool
  | none => false
  | some [] => false
  | some (_ :: _) => true

/-- One iteration of the Step-2 loop (lines 162-202) on the file `it` of the
shared scratch listing: skip names not ending in `.kmz`; open the archive
(non-archives raise `BadZipFile`); extract into a fresh per-item directory;
skip when `doc.kml` is absent; run `parse_kml`, its errors aborting the run
and its skip triple (or a falsy name/href) skipping the item; otherwise
synthesize `cleaned.kml`, repackage, record the output and the log line.
The per-item directory is removed on every non-error exit, so it is modeled
locally. -/
def processItem (st : RunState) (it : List Char × FData) : RunState :=
  if endsKmz it.1 then
    match it.2 with
    | .text _ => { st with err := some .badZipFile }
    | .xml _ => { st with err := some .badZipFile }
    | .zip es =>
        let scr := extractAll [] es
        match lookupA scr docKmlName with
        | none => st
        | some content =>
            match parse_kml content scr with
            | .error e => { st with err := some e }
            | .ok none => st
            | .ok (some f) =>
                if truthy f.docName && truthy (some f.href) then
                  let scr2 := create_clean_kml scr cleanedName
                    (optStr f.docName) f.href
                    (optStr f.north, optStr f.south, optStr f.east,
                     optStr f.west)
                  match repackage_kmz scr2 f.href with
                  | .error e => { st with err := some e }
                  | .ok arc =>
                      { st with
                        output := st.output ++ [(it.1, arc)],
                        log := st.log ++ logLine it.1 }
                else st
  else st

/-- The Step-2 loop over the scratch listing; an uncaught exception stops it. -/
def processLoop (st : RunState) : List (List Char × FData) → RunState
  | [] => st
  | it :: rest =>
      let st2 := processItem st it
      match st2.err with
      | some _ => st2
      | none => processLoop st2 rest

/-- `extract_zip` (lines 61-64): extract a `.zip` file into the shared
scratch area; a non-archive raises `BadZipFile`. -/
def extract_zip (temp : Dir) (content : FData) : Except PyError Dir :=
  match content with
  | .zip es => .ok (extractAll temp es)
  | _ => .error .badZipFile

/-- Step 1 (lines 152-157): extract every `.zip` of the script folder
listing into the shared scratch area, in listing order. -/
def extractZipsAll : List (List Char × FData) → Dir → Except PyError Dir
  | [], temp => .ok temp
  | (nm, c) :: rest, temp =>
      if endsZip nm then
        match extract_zip temp c with
        | .error e => .error e
        | .ok temp2 => extractZipsAll rest temp2
      else extractZipsAll rest temp

/-- `process_files` on the script folder listing `script`: write the log
header, extract the `.zip` inputs into the (freshly wiped) scratch area,
then run the loop over the scratch listing.  The output folder starts
freshly wiped.  The end-of-run scratch cleanup (lines 204-223) touches no
observable of `RunState`. -/
def process_files (script : List (List Char × FData)) : RunState :=
  let st0 : RunState := { output := [], log := headerTxt, err := none }
  match extractZipsAll script [] with
  | .error e => { st0 with err := some e }
  | .ok temp => processLoop st0 temp

/-! ## Textual occurrence machinery

The synthesized document is analysed at the character level.  All markup the
script could re-read starts with `'<'`, so occurrence questions reduce to
`'<'`-anchored patterns: `okPair c l` says the two-character anchor `<c`
never occurs in `l` and `l` does not end in `'<'` (so no occurrence of an
anchored pattern can straddle `l`'s right edge). -/

/-- Does the list end with the character `'<'`? -/
def lastIsLt : List Char → Bool
  | [] => false
  | [c] => c == '<'
  | _ :: c :: rest => lastIsLt (c :: rest)

/-- `l` is free of the anchor `<c` and does not end in `'<'`. -/
abbrev okPair (c : Char) (l : List Char) : Prop :=
  hasSub ['<', c] l = false ∧ lastIsLt l = false

theorem begB_self_append (p x : List Char) : begB p (p ++ x) = true := by
  induction p with
  | nil => rfl
  | cons a as ih => simp [begB, ih]

theorem begB_of_append {p r : List Char} :
    ∀ t, begB (p ++ r) t = true → begB p t = true := by
  induction p with
  | nil => intro t _; rfl
  | cons a as ih =>
      intro t h
      cases t with
      | nil => simp [begB] at h
      | cons b bs =>
          simp only [List.cons_append, begB, Bool.and_eq_true] at h ⊢
          exact ⟨h.1, ih bs h.2⟩

theorem hasSub_of_append {p r : List Char} :
    ∀ l, hasSub (p ++ r) l = true → hasSub p l = true := by
  intro l
  induction l with
  | nil =>
      intro h
      simp only [hasSub] at h ⊢
      exact begB_of_append [] h
  | cons c rest ih =>
      intro h
      simp only [hasSub, Bool.or_eq_true] at h ⊢
      rcases h with h | h
      · exact Or.inl (begB_of_append _ h)
      · exact Or.inr (ih h)

theorem hasSub_ext_false {c : Char} {l : List Char}
    (h : hasSub ['<', c] l = false) (r : List Char) :
    hasSub ('<' :: c :: r) l = false := by
  by_contra hne
  have htrue : hasSub (['<', c] ++ r) l = true := by
    cases he : hasSub ('<' :: c :: r) l with
    | false => exact absurd he hne
    | true => exact he
  rw [hasSub_of_append l htrue] at h
  cases h

theorem lastIsLt_cons_cons (x y : Char) (t : List Char) :
    lastIsLt (x :: y :: t) = lastIsLt (y :: t) := rfl

theorem lastIsLt_append_right (a : List Char) {b : List Char} (hb : b ≠ []) :
    lastIsLt (a ++ b) = lastIsLt b := by
  induction a with
  | nil => rfl
  | cons x as ih =>
      have hne : as ++ b ≠ [] := by
        intro h
        rcases List.append_eq_nil.mp h with ⟨_, h2⟩
        exact hb h2
      cases hab : as ++ b with
      | nil => exact absurd hab hne
      | cons y t =>
          calc lastIsLt ((x :: as) ++ b) = lastIsLt (x :: (as ++ b)) := rfl
            _ = lastIsLt (as ++ b) := by rw [hab]; rfl
            _ = lastIsLt b := ih

theorem okPair_tail {c x : Char} {as : List Char} (h : okPair c (x :: as)) :
    okPair c as := by
  rcases h with ⟨h1, h2⟩
  simp only [hasSub, Bool.or_eq_false_iff] at h1
  refine ⟨h1.2, ?_⟩
  cases as with
  | nil => rfl
  | cons y t => rw [← lastIsLt_cons_cons x y t]; exact h2

theorem okPair_head {c y : Char} {t : List Char} (h : okPair c ('<' :: y :: t)) :
    (c == y) = false := by
  rcases h with ⟨h1, _⟩
  have h2 : (((c == y) && true) || hasSub ['<', c] (y :: t)) = false := h1
  simp only [Bool.and_true, Bool.or_eq_false_iff] at h2
  exact h2.1

theorem okPair_single {c : Char} (h : okPair c ['<']) : False := by
  rcases h with ⟨_, h2⟩
  simp [lastIsLt] at h2

theorem okPair_append {c : Char} {a b : List Char}
    (ha : okPair c a) (hb : okPair c b) : okPair c (a ++ b) := by
  constructor
  · induction a with
    | nil => exact hb.1
    | cons x as ih =>
        have has := okPair_tail ha
        simp only [List.cons_append, hasSub, Bool.or_eq_false_iff]
        refine ⟨?_, ih has⟩
        by_cases hx : x = '<'
        · subst hx
          cases as with
          | nil => exact (okPair_single ha).elim
          | cons y t =>
              have hcy := okPair_head ha
              simp [begB, hcy]
        · have hne : ('<' == x) = false := beq_eq_false_iff_ne.mpr (Ne.symm hx)
          simp [begB, hne]
  · by_cases hbnil : b = []
    · subst hbnil
      rw [List.append_nil]
      exact ha.2
    · rw [lastIsLt_append_right a hbnil]
      exact hb.2

theorem okPair_of_not_mem {c : Char} {l : List Char} (h : '<' ∉ l) :
    okPair c l := by
  constructor
  · induction l with
    | nil => rfl
    | cons x t ih =>
        have hx : x ≠ '<' := fun he => h (he ▸ List.mem_cons_self x t)
        have ht : '<' ∉ t := fun hm => h (List.mem_cons_of_mem x hm)
        simp only [hasSub, Bool.or_eq_false_iff]
        exact ⟨by simp [begB, Ne.symm hx], ih ht⟩
  · induction l with
    | nil => rfl
    | cons x t ih =>
        have hx : x ≠ '<' := fun he => h (he ▸ List.mem_cons_self x t)
        have ht : '<' ∉ t := fun hm => h (List.mem_cons_of_mem x hm)
        cases t with
        | nil => simp [lastIsLt, hx]
        | cons y u => rw [lastIsLt_cons_cons]; exact ih ht

theorem split_at_anchor {c : Char} (q : List Char) :
    ∀ (a b : List Char), okPair c a →
      splitSub ('<' :: c :: q) (a ++ ('<' :: c :: (q ++ b))) = some (a, b) := by
  intro a
  induction a with
  | nil =>
      intro b _
      have hcond : begB ('<' :: c :: q) ('<' :: c :: (q ++ b)) = true :=
        begB_self_append ('<' :: c :: q) b
      have hdrop : ('<' :: c :: (q ++ b)).drop ('<' :: c :: q).length = b :=
        List.drop_left ('<' :: c :: q) b
      simp [splitSub, hcond, hdrop]
  | cons x as ih =>
      intro b ha
      have hcond :
          begB ('<' :: c :: q) (x :: (as ++ ('<' :: c :: (q ++ b)))) = false := by
        by_cases hx : x = '<'
        · subst hx
          cases as with
          | nil => exact (okPair_single ha).elim
          | cons y t =>
              have hcy := okPair_head ha
              simp [begB, hcy]
        · have hne : ('<' == x) = false := beq_eq_false_iff_ne.mpr (Ne.symm hx)
          simp [begB, hne]
      have hrec := ih b (okPair_tail ha)
      simp only [List.cons_append]
      simp [splitSub, hcond, hrec]

/-- The character data of an element as ElementTree exposes it through
`.text`: the characters after the opening tag up to the first `'<'` (the
start of the first child element or of the closing tag). -/
def takeText : List Char → List Char
  | [] => []
  | c :: rest => if c = '<' then [] else c :: takeText rest

/-- Does the list begin with the tail of one of the five predefined XML
entities (the part after the `'&'`)? -/
def entAt (rest : List Char) : Bool :=
  begB "amp;".toList rest || begB "lt;".toList rest ||
  begB "gt;".toList rest || begB "quot;".toList rest ||
  begB "apos;".toList rest

/-- Expat's well-formedness requirement on ampersands: every `'&'` in the
document must begin one of the five predefined XML entities.  A bare `'&'`
(or an unknown entity) makes `ET.parse` raise `ParseError`.  Numeric
character references (`&#...;`) are not modeled; no input considered here
contains one. -/
def ampOk : List Char → Bool
  | [] => true
  | c :: rest => (if c = '&' then entAt rest else true) && ampOk rest

/-- Entity decoding the XML parser applies to character data: the five
predefined entities become the characters they denote. -/
def decodeEnt : List Char → List Char
  | [] => []
  | c :: rest =>
      if c = '&' then
        match rest with
        | 'a' :: 'm' :: 'p' :: ';' :: r => '&' :: decodeEnt r
        | 'l' :: 't' :: ';' :: r => '<' :: decodeEnt r
        | 'g' :: 't' :: ';' :: r => '>' :: decodeEnt r
        | 'q' :: 'u' :: 'o' :: 't' :: ';' :: r => '"' :: decodeEnt r
        | 'a' :: 'p' :: 'o' :: 's' :: ';' :: r => Char.ofNat 39 :: decodeEnt r
        | r => '&' :: decodeEnt r
      else c :: decodeEnt rest

/-- Raw `.text` of the element introduced by the first occurrence of
`openT`: the character data up to the first following `'<'`, and `none`
when there is none — ElementTree reports the text of an element whose
content starts with a child element (or is empty) as Python `None`. -/
def grabText (openT doc : List Char) : Option (List Char) :=
  match splitSub openT doc with
  | none => none
  | some (_, rest) =>
      match takeText rest with
      | [] => none
      | v => some v

/-! ## Re-extraction from the synthesized text

These model what `parse_kml` reads back when `ET.parse` re-reads the
synthesized document: the whole text must satisfy the ampersand
well-formedness requirement (`ampOk`, else `ET.parse` raises and nothing is
extracted), the element looked up is the first one in document order (the
`Document`-level `name`, which precedes the fixed `<name>Map</name>` of the
overlay; the first `Icon`/`href`; the coordinate children of the first
`LatLonBox`), its raw text runs to the first `'<'` and is `None` when
empty, and entity decoding is applied to it. -/

/-- Decoded text of the first `name` element of the document. -/
def reextract_name (doc : List Char) : Option (List Char) :=
  match ampOk doc with
  | false => none
  | true => (grabText "<name>".toList doc).map decodeEnt

/-- Decoded text of the first `href` element of the document. -/
def reextract_href (doc : List Char) : Option (List Char) :=
  match ampOk doc with
  | false => none
  | true => (grabText "<href>".toList doc).map decodeEnt

/-- Decoded text of the `north` child of the first `LatLonBox` element. -/
def reextract_north (doc : List Char) : Option (List Char) :=
  match ampOk doc with
  | false => none
  | true =>
      match splitSub "<LatLonBox>".toList doc with
      | none => none
      | some (_, r) => (grabText "<north>".toList r).map decodeEnt

/-- Decoded text of the `south` child of the first `LatLonBox` element. -/
def reextract_south (doc : List Char) : Option (List Char) :=
  match ampOk doc with
  | false => none
  | true =>
      match splitSub "<LatLonBox>".toList doc with
      | none => none
      | some (_, r) => (grabText "<south>".toList r).map decodeEnt

/-- Decoded text of the `east` child of the first `LatLonBox` element. -/
def reextract_east (doc : List Char) : Option (List Char) :=
  match ampOk doc with
  | false => none
  | true =>
      match splitSub "<LatLonBox>".toList doc with
      | none => none
      | some (_, r) => (grabText "<east>".toList r).map decodeEnt

/-- Decoded text of the `west` child of the first `LatLonBox` element. -/
def reextract_west (doc : List Char) : Option (List Char) :=
  match ampOk doc with
  | false => none
  | true =>
      match splitSub "<LatLonBox>".toList doc with
      | none => none
      | some (_, r) => (grabText "<west>".toList r).map decodeEnt

/-- Concatenation of a list of character lists. -/
def catAll : List (List Char) → List Char
  | [] => []
  | p :: ps => p ++ catAll ps

theorem okPair_catAll {c : Char} :
    ∀ ps : List (List Char), (∀ p ∈ ps, okPair c p) → okPair c (catAll ps) := by
  intro ps h
  induction ps with
  | nil => exact ⟨rfl, rfl⟩
  | cons p ps ih =>
      exact okPair_append (h p (List.mem_cons_self p ps))
        (ih fun x hx => h x (List.mem_cons_of_mem p hx))

theorem kml_text_eq_cat (dn hr n s e w : List Char) :
    kml_text dn hr n s e w = catAll
      [lit0, "<name>".toList, dn, "</name>".toList,
       lit1, "<href>".toList, hr, "</href>".toList,
       lit2, "<LatLonBox>".toList,
       lit3, "<north>".toList, n, "</north>".toList,
       lit3, "<south>".toList, s, "</south>".toList,
       lit3, "<east>".toList, e, "</east>".toList,
       lit3, "<west>".toList, w, "</west>".toList, lit7] := by
  simp [kml_text, catAll, List.append_assoc]

/-! ## Directory and pipeline lemmas -/

theorem lookupA_writeA_self (d : Dir) (k : List Char) (v : FData) :
    lookupA (writeA d k v) k = some v := by
  induction d with
  | nil => simp [writeA, lookupA]
  | cons e t ih =>
      rcases e with ⟨k0, v0⟩
      by_cases hk : k0 = k
      · simp [writeA, hk, lookupA]
      · simp [writeA, hk, lookupA, ih]

theorem lookupA_writeA_ne (d : Dir) {k k2 : List Char} (v : FData)
    (h : k2 ≠ k) : lookupA (writeA d k v) k2 = lookupA d k2 := by
  induction d with
  | nil => simp [writeA, lookupA, Ne.symm h]
  | cons e t ih =>
      rcases e with ⟨k0, v0⟩
      by_cases hk : k0 = k
      · subst hk
        simp [writeA, lookupA, Ne.symm h]
      · simp [writeA, hk, lookupA, ih]

theorem output_append_ne (l : List (List Char × FData)) (x : List Char × FData) :
    ¬ l = l ++ [x] := by
  intro h
  have := congrArg List.length h
  simp at this

/-- Every loop iteration either leaves the state unchanged, only sets the
error, or appends exactly one output file together with its log line. -/
theorem processItem_shape (st : RunState) (it : List Char × FData) :
    processItem st it = st ∨
    (∃ e, processItem st it = { st with err := some e }) ∨
    (∃ nm arc, processItem st it =
      { st with output := st.output ++ [(nm, arc)],
                log := st.log ++ logLine nm }) := by
  rcases it with ⟨nm, d⟩
  by_cases hk : endsKmz nm = true
  · cases d with
    | text t => exact Or.inr (Or.inl ⟨.badZipFile, by simp [processItem, hk]⟩)
    | xml x => exact Or.inr (Or.inl ⟨.badZipFile, by simp [processItem, hk]⟩)
    | zip es =>
        cases hdoc : lookupA (extractAll [] es) docKmlName with
        | none => exact Or.inl (by simp [processItem, hk, hdoc])
        | some content =>
            cases hp : parse_kml content (extractAll [] es) with
            | error e =>
                exact Or.inr (Or.inl ⟨e, by simp [processItem, hk, hdoc, hp]⟩)
            | ok o =>
                cases o with
                | none => exact Or.inl (by simp [processItem, hk, hdoc, hp])
                | some f =>
                    by_cases ht : (truthy f.docName && truthy (some f.href)) = true
                    · cases hrep : repackage_kmz
                          (create_clean_kml (extractAll [] es) cleanedName
                            (optStr f.docName) f.href
                            (optStr f.north, optStr f.south, optStr f.east,
                             optStr f.west)) f.href with
                      | error e =>
                          exact Or.inr (Or.inl ⟨e,
                            by simp [processItem, hk, hdoc, hp, ht, hrep]⟩)
                      | ok arc =>
                          exact Or.inr (Or.inr ⟨nm, arc,
                            by simp [processItem, hk, hdoc, hp, ht, hrep]⟩)
                    · exact Or.inl (by simp [processItem, hk, hdoc, hp, ht])
  · exact Or.inl (by simp [processItem, hk])

/-- Outputs and log only grow along the loop, and the log grows exactly when
the output list does. -/
theorem processLoop_grow :
    ∀ (items : List (List Char × FData)) (st : RunState),
      ∃ t l, (processLoop st items).output = st.output ++ t ∧
             (processLoop st items).log = st.log ++ l ∧ (t = [] → l = []) := by
  intro items
  induction items with
  | nil => intro st; exact ⟨[], [], by simp [processLoop], by simp [processLoop], fun _ => rfl⟩
  | cons it rest ih =>
      intro st
      rcases processItem_shape st it with hs | ⟨e, hs⟩ | ⟨nm, arc, hs⟩
      · cases herr : (processItem st it).err with
        | some e =>
            have herr2 : st.err = some e := by rw [hs] at herr; exact herr
            refine ⟨[], [], ?_, ?_, fun _ => rfl⟩
            · simp [processLoop, hs, herr2]
            · simp [processLoop, hs, herr2]
        | none =>
            rcases ih (processItem st it) with ⟨t, l, h1, h2, h3⟩
            refine ⟨t, l, ?_, ?_, h3⟩
            · simp only [processLoop, herr]
              rw [h1, hs]
            · simp only [processLoop, herr]
              rw [h2, hs]
      · have herr : (processItem st it).err = some e := by rw [hs]
        refine ⟨[], [], ?_, ?_, fun _ => rfl⟩
        · simp [processLoop, herr, hs]
        · simp [processLoop, herr, hs]
      · have herr : (processItem st it).err = st.err := by rw [hs]
        cases hste : st.err with
        | some e =>
            refine ⟨[(nm, arc)], logLine nm, ?_, ?_, fun h => absurd h (by simp)⟩
            · simp [processLoop, herr, hste, hs]
            · simp [processLoop, herr, hste, hs]
        | none =>
            rcases ih (processItem st it) with ⟨t, l, h1, h2, h3⟩
            refine ⟨(nm, arc) :: t, logLine nm ++ l, ?_, ?_,
              fun h => absurd h (by simp)⟩
            · simp only [processLoop, herr, hste]
              rw [h1, hs]
              simp
            · simp only [processLoop, herr, hste]
              rw [h2, hs]
              simp

/-! ## Concrete inputs used by the scenario evaluations -/

/-- Element constructor over plain strings and lists. -/
def el (tag : String) (txt : Option String) (cs : List Xml) : Xml :=
  .elem tag.toList (txt.map String.toList) (ofL cs)

/-- The `Document` of the spec scenario: name "Topo A", one ground overlay
with image `overlay.png` and bounds 45.0, 44.0, -120.0, -121.0. -/
def sampleDoc : Xml :=
  el "Document" none
    [ el "name" (some "Topo A") [],
      el "GroundOverlay" none
        [ el "Icon" none [el "href" (some "overlay.png") []],
          el "LatLonBox" none
            [ el "north" (some "45.0") [],
              el "south" (some "44.0") [],
              el "east" (some "-120.0") [],
              el "west" (some "-121.0") [] ] ] ]

/-- The root element of the scenario's `doc.kml`. -/
def sampleRoot : Xml := el "kml" none [sampleDoc]

/-- The scenario's `sample.kmz`: a valid overlay archive. -/
def sampleKmz : FData :=
  .zip [(docKmlName, .xml sampleRoot),
        ("overlay.png".toList, .text "IMG".toList)]

/-- A `.kmz` whose `doc.kml` is not well-formed XML. -/
def brokenKmz : FData :=
  .zip [(docKmlName, .text "<kml><unclosed".toList),
        ("i.png".toList, .text "I".toList)]

/-- A well-formed `doc.kml` with an overlay and image but no `name` element
anywhere. -/
def nonameRoot : Xml :=
  el "kml" none
    [ el "Document" none
        [ el "GroundOverlay" none
            [ el "Icon" none [el "href" (some "i.png") []],
              el "LatLonBox" none
                [ el "north" (some "1") [],
                  el "south" (some "2") [],
                  el "east" (some "3") [],
                  el "west" (some "4") [] ] ] ] ]

/-- A `.kmz` around `nonameRoot`, with its image present. -/
def nonameKmz : FData :=
  .zip [(docKmlName, .xml nonameRoot), ("i.png".toList, .text "I".toList)]

/-- A well-formed document with a name and an overlay whose `Icon` has no
`href` child. -/
def rootNoIcon : Xml :=
  el "kml" none
    [ el "Document" none
        [ el "name" (some "N") [],
          el "GroundOverlay" none
            [ el "Icon" none [], el "LatLonBox" none [] ] ] ]

/-- A well-formed document whose overlay has an `href` element that is
present but empty (its text is Python `None`). -/
def rootEmptyHref : Xml :=
  el "kml" none
    [ el "Document" none
        [ el "name" (some "N") [],
          el "GroundOverlay" none
            [ el "Icon" none [el "href" none []],
              el "LatLonBox" none [] ] ] ]

/-- A well-formed document whose overlay has an image reference but no
`LatLonBox` element. -/
def rootNoBox : Xml :=
  el "kml" none
    [ el "Document" none
        [ el "name" (some "N") [],
          el "GroundOverlay" none
            [ el "Icon" none [el "href" (some "i.png") []] ] ] ]

/-- A well-formed document whose `LatLonBox` lacks the `north` child. -/
def rootNoNorth : Xml :=
  el "kml" none
    [ el "Document" none
        [ el "name" (some "N") [],
          el "GroundOverlay" none
            [ el "Icon" none [el "href" (some "i.png") []],
              el "LatLonBox" none
                [ el "south" (some "2") [],
                  el "east" (some "3") [],
                  el "west" (some "4") [] ] ] ] ]

/-- A directory holding the image `i.png`. -/
def imgDir : Dir := [("i.png".toList, FData.text "I".toList)]

/-- A well-formed document that references `gone.png`, which is not among
its archive's entries. -/
def noimgRoot : Xml :=
  el "kml" none
    [ el "Document" none
        [ el "name" (some "N") [],
          el "GroundOverlay" none
            [ el "Icon" none [el "href" (some "gone.png") []],
              el "LatLonBox" none
                [ el "north" (some "1") [],
                  el "south" (some "2") [],
                  el "east" (some "3") [],
                  el "west" (some "4") [] ] ] ] ]

/-- A `.kmz` around `noimgRoot`: its referenced image is absent. -/
def noimgKmz : FData := .zip [(docKmlName, .xml noimgRoot)]

/-- A well-formed document whose referenced image is named `cleaned.kml`,
colliding with the scratch name of the synthesized document. -/
def collideRoot : Xml :=
  el "kml" none
    [ el "Document" none
        [ el "name" (some "N") [],
          el "GroundOverlay" none
            [ el "Icon" none [el "href" (some "cleaned.kml") []],
              el "LatLonBox" none
                [ el "north" (some "1") [],
                  el "south" (some "2") [],
                  el "east" (some "3") [],
                  el "west" (some "4") [] ] ] ] ]

/-- A `.kmz` around `collideRoot`, with the image file present under the
colliding name `cleaned.kml`. -/
def collideKmz : FData :=
  .zip [(docKmlName, .xml collideRoot),
        ("cleaned.kml".toList, .text "IMG".toList)]

/-! ## Claims -/

/-- Claim C1: the claim says a `.kmz` placed directly in the working
directory is discovered and processed.  The code's Step-2 loop lists only the
scratch area `temp_extract`, which is populated solely by extracting `.zip`
files, so the valid `sample.kmz` placed in the working directory yields no
output archive and no log line (first conjunct), while the identical archive
arriving inside a `.zip` is processed, producing the expected output archive
and log line (second conjunct).  This contradicts the claim and the script's
own usage docstring. -/
theorem c1_kmz_in_folder_ignored :
    process_files [("sample.kmz".toList, sampleKmz)] =
      { output := [], log := headerTxt, err := none } ∧
    process_files
        [("bundle.zip".toList, FData.zip [("sample.kmz".toList, sampleKmz)])] =
      { output := [("sample.kmz".toList, FData.zip
          [(docKmlName, FData.text
              (kml_text "Topo A".toList "overlay.png".toList "45.0".toList
                "44.0".toList "-120.0".toList "-121.0".toList)),
           ("overlay.png".toList, FData.text "IMG".toList)])],
        log := headerTxt ++ logLine "sample.kmz".toList,
        err := none } :=
  ⟨rfl, rfl⟩

/-- Claim C2 counterexample: a run whose scratch listing starts with
`broken.kmz` (unparsable `doc.kml`) followed by the valid `good.kmz` ends
with an uncaught `ParseError`: the run does not complete, and the subsequent
valid input is not processed (empty output, header-only log) — contradicting
"the run completes ... and every subsequent input is still processed". -/
theorem c2_counterexample :
    process_files
        [("bundle.zip".toList, FData.zip
            [("broken.kmz".toList, brokenKmz),
             ("good.kmz".toList, sampleKmz)])] =
      { output := [], log := headerTxt, err := some PyError.malformedXml } :=
  rfl

/-- Claim C2 (amended): an input archive whose `doc.kml` is not well-formed
XML aborts the whole run with an uncaught `ParseError`: that input produces
no output archive and no log entry, and no subsequent input is processed
(the loop state is returned unchanged except for the recorded error). -/
theorem c2_amended (st : RunState) (nm : List Char)
    (es : List (List Char × FData)) (raw : List Char)
    (rest : List (List Char × FData))
    (hk : endsKmz nm = true)
    (hdoc : lookupA (extractAll [] es) docKmlName = some (FData.text raw)) :
    processLoop st ((nm, FData.zip es) :: rest) =
      { st with err := some PyError.malformedXml } := by
  have hpi : processItem st (nm, FData.zip es) =
      { st with err := some PyError.malformedXml } := by
    simp [processItem, hk, hdoc, parse_kml, etParse]
  simp [processLoop, hpi]

/-- Witness for C2 (amended) at the concrete broken archive. -/
theorem c2_amended_witness :
    processLoop { output := [], log := headerTxt, err := none }
        [("broken.kmz".toList, brokenKmz), ("good.kmz".toList, sampleKmz)] =
      { output := [], log := headerTxt, err := some PyError.malformedXml } :=
  c2_amended _ _ _ _ _ (by decide) (by rfl)

/-- Claim C3 counterexample: a well-formed `doc.kml` lacking the
document-name element makes the run die of an uncaught `AttributeError`
(`root.find(...).text` on `None`): extraction raises instead of returning a
skip signal, and the item is not skipped non-fatally. -/
theorem c3_counterexample :
    process_files
        [("box.zip".toList, FData.zip [("noname.kmz".toList, nonameKmz)])] =
      { output := [], log := headerTxt, err := some PyError.attributeError } :=
  rfl

/-- Claim C3 (amended): when the document-name element, the `Icon`/`href`
element, the `LatLonBox` element, or any of the four coordinate children is
absent, `parse_kml` raises an uncaught `AttributeError` (aborting the run)
instead of returning a skip signal; an `href` element that is present but
empty likewise aborts the run, with the `TypeError` that
`os.path.join(dirname, None)` raises. -/
theorem c3_amended (root : Xml) (scr : Dir) :
    (findIn "name".toList (childrenOf root) = none →
      parse_kml (FData.xml root) scr = .error PyError.attributeError) ∧
    (∀ nel go, findIn "name".toList (childrenOf root) = some nel →
      findIn "GroundOverlay".toList (childrenOf root) = some go →
      findPath "Icon".toList "href".toList (childrenOf go) = none →
      parse_kml (FData.xml root) scr = .error PyError.attributeError) ∧
    (∀ nel go hel h v, findIn "name".toList (childrenOf root) = some nel →
      findIn "GroundOverlay".toList (childrenOf root) = some go →
      findPath "Icon".toList "href".toList (childrenOf go) = some hel →
      textOf hel = some h → lookupA scr h = some v →
      findIn "LatLonBox".toList (childrenOf go) = none →
      parse_kml (FData.xml root) scr = .error PyError.attributeError) ∧
    (∀ nel go hel h v lb, findIn "name".toList (childrenOf root) = some nel →
      findIn "GroundOverlay".toList (childrenOf root) = some go →
      findPath "Icon".toList "href".toList (childrenOf go) = some hel →
      textOf hel = some h → lookupA scr h = some v →
      findIn "LatLonBox".toList (childrenOf go) = some lb →
      (findChild "north".toList (childrenOf lb) = none ∨
       findChild "south".toList (childrenOf lb) = none ∨
       findChild "east".toList (childrenOf lb) = none ∨
       findChild "west".toList (childrenOf lb) = none) →
      parse_kml (FData.xml root) scr = .error PyError.attributeError) ∧
    (∀ nel go hel, findIn "name".toList (childrenOf root) = some nel →
      findIn "GroundOverlay".toList (childrenOf root) = some go →
      findPath "Icon".toList "href".toList (childrenOf go) = some hel →
      textOf hel = none →
      parse_kml (FData.xml root) scr = .error PyError.typeError) := by
  refine ⟨?_, ?_, ?_, ?_, ?_⟩
  · intro hn
    simp only [parse_kml, etParse, hn]
  · intro nel go hn hg hh
    simp only [parse_kml, etParse, hn, hg, hh]
  · intro nel go hel h v hn hg hh hht hv hlb
    simp only [parse_kml, etParse, hn, hg, hh, hht, hv, hlb]
  · intro nel go hel h v lb hn hg hh hht hv hlb hd
    rcases hd with hc | hc | hc | hc
    · simp only [parse_kml, etParse, hn, hg, hh, hht, hv, hlb, hc]
    · cases hN : findChild "north".toList (childrenOf lb) with
      | none => simp only [parse_kml, etParse, hn, hg, hh, hht, hv, hlb, hN]
      | some ne =>
          simp only [parse_kml, etParse, hn, hg, hh, hht, hv, hlb, hN, hc]
    · cases hN : findChild "north".toList (childrenOf lb) with
      | none => simp only [parse_kml, etParse, hn, hg, hh, hht, hv, hlb, hN]
      | some ne =>
          cases hS : findChild "south".toList (childrenOf lb) with
          | none => simp only [parse_kml, etParse, hn, hg, hh, hht, hv, hlb, hN, hS]
          | some se =>
              simp only [parse_kml, etParse, hn, hg, hh, hht, hv, hlb, hN, hS, hc]
    · cases hN : findChild "north".toList (childrenOf lb) with
      | none => simp only [parse_kml, etParse, hn, hg, hh, hht, hv, hlb, hN]
      | some ne =>
          cases hS : findChild "south".toList (childrenOf lb) with
          | none => simp only [parse_kml, etParse, hn, hg, hh, hht, hv, hlb, hN, hS]
          | some se =>
              cases hE : findChild "east".toList (childrenOf lb) with
              | none =>
                  simp only [parse_kml, etParse, hn, hg, hh, hht, hv, hlb, hN, hS, hE]
              | some ee =>
                  simp only [parse_kml, etParse, hn, hg, hh, hht, hv, hlb, hN, hS,
                    hE, hc]
  · intro nel go hel hn hg hh hht
    simp only [parse_kml, etParse, hn, hg, hh, hht]

/-- Witness for C3 (amended): the four absent-element cases and the
empty-href case at concrete documents. -/
theorem c3_amended_witness :
    parse_kml (FData.xml nonameRoot) [] = .error PyError.attributeError ∧
    parse_kml (FData.xml rootNoIcon) [] = .error PyError.attributeError ∧
    parse_kml (FData.xml rootNoBox) imgDir = .error PyError.attributeError ∧
    parse_kml (FData.xml rootNoNorth) imgDir = .error PyError.attributeError ∧
    parse_kml (FData.xml rootEmptyHref) [] = .error PyError.typeError :=
  ⟨(c3_amended nonameRoot []).1 (by rfl),
   (c3_amended rootNoIcon []).2.1 _ _ (by rfl) (by rfl) (by rfl),
   (c3_amended rootNoBox imgDir).2.2.1 _ _ _ _ _ (by rfl) (by rfl) (by rfl)
     (by rfl) (by rfl) (by rfl),
   (c3_amended rootNoNorth imgDir).2.2.2.1 _ _ _ _ _ _ (by rfl) (by rfl)
     (by rfl) (by rfl) (by rfl) (by rfl) (Or.inl (by rfl)),
   (c3_amended rootEmptyHref []).2.2.2.2 _ _ _ (by rfl) (by rfl) (by rfl)
     (by rfl)⟩

/-- Claim C4 counterexample: the synthesizer interpolates the display name
with no escaping, so the record whose display name is the markup string
`<Region></Region>` yields a document in which the opening tag `<Region`
occurs — when parsed, that document contains a `Region` element, violating
"zero region elements ... for all inputs". -/
theorem c4_counterexample :
    hasSub "<Region".toList
      (kml_text "<Region></Region>".toList "img.png".toList
        "1".toList "2".toList "3".toList "4".toList) = true := by
  decide

/-- Claim C4 (amended): for every record whose six fields are free of the
markup character `'<'` (all fields produced from非 well-formed sources are,
unless the source document itself smuggled markup through escaped text), the
synthesized document contains no occurrence of an opening `Region` tag and
none of an opening `NetworkLink` tag, hence parses with zero region and zero
network-link elements. -/
theorem c4_amended (dn hr n s e w : List Char)
    (h1 : '<' ∉ dn) (h2 : '<' ∉ hr) (h3 : '<' ∉ n) (h4 : '<' ∉ s)
    (h5 : '<' ∉ e) (h6 : '<' ∉ w) :
    hasSub "<Region".toList (kml_text dn hr n s e w) = false ∧
    hasSub "<NetworkLink".toList (kml_text dn hr n s e w) = false := by
  have hR : okPair 'R' (kml_text dn hr n s e w) := by
    rw [kml_text_eq_cat]
    apply okPair_catAll
    intro p hp
    fin_cases hp <;>
      first
        | exact okPair_of_not_mem (by assumption)
        | decide
  have hN : okPair 'N' (kml_text dn hr n s e w) := by
    rw [kml_text_eq_cat]
    apply okPair_catAll
    intro p hp
    fin_cases hp <;>
      first
        | exact okPair_of_not_mem (by assumption)
        | decide
  exact ⟨hasSub_ext_false hR.1 "egion".toList,
         hasSub_ext_false hN.1 "etworkLink".toList⟩

/-- Witness for C4 (amended) at the scenario record. -/
theorem c4_amended_witness :
    hasSub "<Region".toList
      (kml_text "Topo A".toList "overlay.png".toList "45.0".toList
        "44.0".toList "-120.0".toList "-121.0".toList) = false ∧
    hasSub "<NetworkLink".toList
      (kml_text "Topo A".toList "overlay.png".toList "45.0".toList
        "44.0".toList "-120.0".toList "-121.0".toList) = false :=
  c4_amended _ _ _ _ _ _ (by decide) (by decide) (by decide) (by decide)
    (by decide) (by decide)

theorem split_at_tag (p : List Char) {c : Char} {q : List Char}
    (hp : p = '<' :: c :: q) {a b : List Char} (ha : okPair c a) :
    splitSub p (a ++ (p ++ b)) = some (a, b) := by
  subst hp
  exact split_at_anchor q a b ha

theorem takeText_append {v : List Char} (hv : '<' ∉ v) (r : List Char) :
    takeText (v ++ '<' :: r) = v := by
  induction v with
  | nil => simp [takeText]
  | cons c cs ih =>
      have hc : c ≠ '<' := fun he => hv (he ▸ List.mem_cons_self c cs)
      have hcs : '<' ∉ cs := fun hm => hv (List.mem_cons_of_mem c hm)
      simp [takeText, hc, ih hcs]

theorem ampOk_of_not_mem {l : List Char} (h : '&' ∉ l) : ampOk l = true := by
  induction l with
  | nil => rfl
  | cons c rest ih =>
      have hc : c ≠ '&' := fun he => h (he ▸ List.mem_cons_self c rest)
      have hrest : '&' ∉ rest := fun hm => h (List.mem_cons_of_mem c hm)
      unfold ampOk
      simp [hc, ih hrest]

theorem decodeEnt_of_not_mem {l : List Char} (h : '&' ∉ l) :
    decodeEnt l = l := by
  induction l with
  | nil => rfl
  | cons c rest ih =>
      have hc : c ≠ '&' := fun he => h (he ▸ List.mem_cons_self c rest)
      have hrest : '&' ∉ rest := fun hm => h (List.mem_cons_of_mem c hm)
      unfold decodeEnt
      simp [hc, ih hrest]

theorem not_mem_catAll {c : Char} :
    ∀ ps : List (List Char), (∀ p ∈ ps, c ∉ p) → c ∉ catAll ps := by
  intro ps h
  induction ps with
  | nil => simp [catAll]
  | cons p ps ih =>
      intro hm
      simp only [catAll] at hm
      rcases List.mem_append.mp hm with hm | hm
      · exact h p (List.mem_cons_self p ps) hm
      · exact ih (fun x hx => h x (List.mem_cons_of_mem p hx)) hm

/-- The synthesized document contains no ampersand at all when the six
interpolated fields contain none (no literal segment does), so it meets the
parser's ampersand requirement. -/
theorem amp_kml (dn hr n s e w : List Char)
    (a1 : '&' ∉ dn) (a2 : '&' ∉ hr) (a3 : '&' ∉ n) (a4 : '&' ∉ s)
    (a5 : '&' ∉ e) (a6 : '&' ∉ w) :
    ampOk (kml_text dn hr n s e w) = true := by
  apply ampOk_of_not_mem
  rw [kml_text_eq_cat]
  apply not_mem_catAll
  intro p hp
  fin_cases hp <;>
    first
      | assumption
      | decide

theorem grabText_at (p1 p2 : List Char) {c1 : Char} {q1 q2 : List Char}
    (hp1 : p1 = '<' :: c1 :: q1) (hp2 : p2 = '<' :: q2)
    {a v tail : List Char} (ha : okPair c1 a) (hv : '<' ∉ v) (hne : v ≠ []) :
    grabText p1 (a ++ (p1 ++ (v ++ (p2 ++ tail)))) = some v := by
  subst hp1
  subst hp2
  unfold grabText
  rw [split_at_tag ('<' :: c1 :: q1) rfl ha]
  dsimp only
  simp only [List.cons_append]
  rw [takeText_append hv]
  cases v with
  | nil => exact absurd rfl hne
  | cons c cs => rfl

theorem reextract_name_clean (dn hr n s e w : List Char) (h1 : '<' ∉ dn)
    (a1 : '&' ∉ dn) (a2 : '&' ∉ hr) (a3 : '&' ∉ n) (a4 : '&' ∉ s)
    (a5 : '&' ∉ e) (a6 : '&' ∉ w) (hne : dn ≠ []) :
    reextract_name (kml_text dn hr n s e w) = some dn := by
  have hamp : ampOk (kml_text dn hr n s e w) = true :=
    amp_kml dn hr n s e w a1 a2 a3 a4 a5 a6
  have hsh : kml_text dn hr n s e w =
      lit0 ++ ("<name>".toList ++ (dn ++ ("</name>".toList ++
        (lit1 ++ "<href>".toList ++ hr ++ "</href>".toList ++ lit2 ++
         "<LatLonBox>".toList ++ lit3 ++ "<north>".toList ++ n ++
         "</north>".toList ++ lit3 ++ "<south>".toList ++ s ++
         "</south>".toList ++ lit3 ++ "<east>".toList ++ e ++
         "</east>".toList ++ lit3 ++ "<west>".toList ++ w ++
         "</west>".toList ++ lit7)))) := by
    simp [kml_text, List.append_assoc]
  unfold reextract_name
  rw [hamp]
  dsimp only
  rw [hsh]
  rw [grabText_at "<name>".toList "</name>".toList rfl rfl (by decide) h1 hne]
  simp [decodeEnt_of_not_mem a1]

theorem reextract_href_clean (dn hr n s e w : List Char)
    (h1 : '<' ∉ dn) (h2 : '<' ∉ hr)
    (a1 : '&' ∉ dn) (a2 : '&' ∉ hr) (a3 : '&' ∉ n) (a4 : '&' ∉ s)
    (a5 : '&' ∉ e) (a6 : '&' ∉ w) (hne : hr ≠ []) :
    reextract_href (kml_text dn hr n s e w) = some hr := by
  have hamp : ampOk (kml_text dn hr n s e w) = true :=
    amp_kml dn hr n s e w a1 a2 a3 a4 a5 a6
  have hsh : kml_text dn hr n s e w =
      (lit0 ++ "<name>".toList ++ dn ++ "</name>".toList ++ lit1) ++
      ("<href>".toList ++ (hr ++ ("</href>".toList ++
        (lit2 ++ "<LatLonBox>".toList ++ lit3 ++ "<north>".toList ++ n ++
         "</north>".toList ++ lit3 ++ "<south>".toList ++ s ++
         "</south>".toList ++ lit3 ++ "<east>".toList ++ e ++
         "</east>".toList ++ lit3 ++ "<west>".toList ++ w ++
         "</west>".toList ++ lit7)))) := by
    simp [kml_text, List.append_assoc]
  unfold reextract_href
  rw [hamp]
  dsimp only
  rw [hsh]
  rw [grabText_at "<href>".toList "</href>".toList rfl rfl
    (okPair_append (okPair_append (okPair_append (okPair_append (by decide)
      (by decide)) (okPair_of_not_mem h1)) (by decide)) (by decide)) h2 hne]
  simp [decodeEnt_of_not_mem a2]

theorem reextract_north_clean (dn hr n s e w : List Char)
    (h1 : '<' ∉ dn) (h2 : '<' ∉ hr) (h3 : '<' ∉ n)
    (a1 : '&' ∉ dn) (a2 : '&' ∉ hr) (a3 : '&' ∉ n) (a4 : '&' ∉ s)
    (a5 : '&' ∉ e) (a6 : '&' ∉ w) (hne : n ≠ []) :
    reextract_north (kml_text dn hr n s e w) = some n := by
  have hamp : ampOk (kml_text dn hr n s e w) = true :=
    amp_kml dn hr n s e w a1 a2 a3 a4 a5 a6
  have hA : okPair 'L'
      (lit0 ++ "<name>".toList ++ dn ++ "</name>".toList ++ lit1 ++
       "<href>".toList ++ hr ++ "</href>".toList ++ lit2) :=
    okPair_append (okPair_append (okPair_append (okPair_append (okPair_append
      (okPair_append (okPair_append (okPair_append (by decide) (by decide))
        (okPair_of_not_mem h1)) (by decide)) (by decide)) (by decide))
      (okPair_of_not_mem h2)) (by decide)) (by decide)
  have hsh : kml_text dn hr n s e w =
      (lit0 ++ "<name>".toList ++ dn ++ "</name>".toList ++ lit1 ++
       "<href>".toList ++ hr ++ "</href>".toList ++ lit2) ++
      ("<LatLonBox>".toList ++
        (lit3 ++ ("<north>".toList ++ (n ++ ("</north>".toList ++
          (lit3 ++ "<south>".toList ++ s ++ "</south>".toList ++
           lit3 ++ "<east>".toList ++ e ++ "</east>".toList ++
           lit3 ++ "<west>".toList ++ w ++ "</west>".toList ++ lit7)))))) := by
    simp [kml_text, List.append_assoc]
  unfold reextract_north
  rw [hamp]
  dsimp only
  rw [hsh]
  rw [split_at_tag "<LatLonBox>".toList rfl hA]
  dsimp only
  rw [grabText_at "<north>".toList "</north>".toList rfl rfl (by decide) h3 hne]
  simp [decodeEnt_of_not_mem a3]

theorem reextract_south_clean (dn hr n s e w : List Char)
    (h1 : '<' ∉ dn) (h2 : '<' ∉ hr) (h3 : '<' ∉ n) (h4 : '<' ∉ s)
    (a1 : '&' ∉ dn) (a2 : '&' ∉ hr) (a3 : '&' ∉ n) (a4 : '&' ∉ s)
    (a5 : '&' ∉ e) (a6 : '&' ∉ w) (hne : s ≠ []) :
    reextract_south (kml_text dn hr n s e w) = some s := by
  have hamp : ampOk (kml_text dn hr n s e w) = true :=
    amp_kml dn hr n s e w a1 a2 a3 a4 a5 a6
  have hA : okPair 'L'
      (lit0 ++ "<name>".toList ++ dn ++ "</name>".toList ++ lit1 ++
       "<href>".toList ++ hr ++ "</href>".toList ++ lit2) :=
    okPair_append (okPair_append (okPair_append (okPair_append (okPair_append
      (okPair_append (okPair_append (okPair_append (by decide) (by decide))
        (okPair_of_not_mem h1)) (by decide)) (by decide)) (by decide))
      (okPair_of_not_mem h2)) (by decide)) (by decide)
  have hA2 : okPair 's'
      (lit3 ++ "<north>".toList ++ n ++ "</north>".toList ++ lit3) :=
    okPair_append (okPair_append (okPair_append (okPair_append (by decide)
      (by decide)) (okPair_of_not_mem h3)) (by decide)) (by decide)
  have hsh : kml_text dn hr n s e w =
      (lit0 ++ "<name>".toList ++ dn ++ "</name>".toList ++ lit1 ++
       "<href>".toList ++ hr ++ "</href>".toList ++ lit2) ++
      ("<LatLonBox>".toList ++
        ((lit3 ++ "<north>".toList ++ n ++ "</north>".toList ++ lit3) ++
          ("<south>".toList ++ (s ++ ("</south>".toList ++
            (lit3 ++ "<east>".toList ++ e ++ "</east>".toList ++
             lit3 ++ "<west>".toList ++ w ++ "</west>".toList ++ lit7)))))) := by
    simp [kml_text, List.append_assoc]
  unfold reextract_south
  rw [hamp]
  dsimp only
  rw [hsh]
  rw [split_at_tag "<LatLonBox>".toList rfl hA]
  dsimp only
  rw [grabText_at "<south>".toList "</south>".toList rfl rfl hA2 h4 hne]
  simp [decodeEnt_of_not_mem a4]

theorem reextract_east_clean (dn hr n s e w : List Char)
    (h1 : '<' ∉ dn) (h2 : '<' ∉ hr) (h3 : '<' ∉ n) (h4 : '<' ∉ s)
    (h5 : '<' ∉ e)
    (a1 : '&' ∉ dn) (a2 : '&' ∉ hr) (a3 : '&' ∉ n) (a4 : '&' ∉ s)
    (a5 : '&' ∉ e) (a6 : '&' ∉ w) (hne : e ≠ []) :
    reextract_east (kml_text dn hr n s e w) = some e := by
  have hamp : ampOk (kml_text dn hr n s e w) = true :=
    amp_kml dn hr n s e w a1 a2 a3 a4 a5 a6
  have hA : okPair 'L'
      (lit0 ++ "<name>".toList ++ dn ++ "</name>".toList ++ lit1 ++
       "<href>".toList ++ hr ++ "</href>".toList ++ lit2) :=
    okPair_append (okPair_append (okPair_append (okPair_append (okPair_append
      (okPair_append (okPair_append (okPair_append (by decide) (by decide))
        (okPair_of_not_mem h1)) (by decide)) (by decide)) (by decide))
      (okPair_of_not_mem h2)) (by decide)) (by decide)
  have hA2 : okPair 'e'
      (lit3 ++ "<north>".toList ++ n ++ "</north>".toList ++ lit3 ++
       "<south>".toList ++ s ++ "</south>".toList ++ lit3) :=
    okPair_append (okPair_append (okPair_append (okPair_append (okPair_append
      (okPair_append (okPair_append (okPair_append (by decide) (by decide))
        (okPair_of_not_mem h3)) (by decide)) (by decide)) (by decide))
      (okPair_of_not_mem h4)) (by decide)) (by decide)
  have hsh : kml_text dn hr n s e w =
      (lit0 ++ "<name>".toList ++ dn ++ "</name>".toList ++ lit1 ++
       "<href>".toList ++ hr ++ "</href>".toList ++ lit2) ++
      ("<LatLonBox>".toList ++
        ((lit3 ++ "<north>".toList ++ n ++ "</north>".toList ++ lit3 ++
          "<south>".toList ++ s ++ "</south>".toList ++ lit3) ++
          ("<east>".toList ++ (e ++ ("</east>".toList ++
            (lit3 ++ "<west>".toList ++ w ++ "</west>".toList ++ lit7)))))) := by
    simp [kml_text, List.append_assoc]
  unfold reextract_east
  rw [hamp]
  dsimp only
  rw [hsh]
  rw [split_at_tag "<LatLonBox>".toList rfl hA]
  dsimp only
  rw [grabText_at "<east>".toList "</east>".toList rfl rfl hA2 h5 hne]
  simp [decodeEnt_of_not_mem a5]

theorem reextract_west_clean (dn hr n s e w : List Char)
    (h1 : '<' ∉ dn) (h2 : '<' ∉ hr) (h3 : '<' ∉ n) (h4 : '<' ∉ s)
    (h5 : '<' ∉ e) (h6 : '<' ∉ w)
    (a1 : '&' ∉ dn) (a2 : '&' ∉ hr) (a3 : '&' ∉ n) (a4 : '&' ∉ s)
    (a5 : '&' ∉ e) (a6 : '&' ∉ w) (hne : w ≠ []) :
    reextract_west (kml_text dn hr n s e w) = some w := by
  have hamp : ampOk (kml_text dn hr n s e w) = true :=
    amp_kml dn hr n s e w a1 a2 a3 a4 a5 a6
  have hA : okPair 'L'
      (lit0 ++ "<name>".toList ++ dn ++ "</name>".toList ++ lit1 ++
       "<href>".toList ++ hr ++ "</href>".toList ++ lit2) :=
    okPair_append (okPair_append (okPair_append (okPair_append (okPair_append
      (okPair_append (okPair_append (okPair_append (by decide) (by decide))
        (okPair_of_not_mem h1)) (by decide)) (by decide)) (by decide))
      (okPair_of_not_mem h2)) (by decide)) (by decide)
  have hA2 : okPair 'w'
      (lit3 ++ "<north>".toList ++ n ++ "</north>".toList ++ lit3 ++
       "<south>".toList ++ s ++ "</south>".toList ++ lit3 ++
       "<east>".toList ++ e ++ "</east>".toList ++ lit3) :=
    okPair_append (okPair_append (okPair_append (okPair_append (okPair_append
      (okPair_append (okPair_append (okPair_append (okPair_append
        (okPair_append (okPair_append (okPair_append (by decide) (by decide))
          (okPair_of_not_mem h3)) (by decide)) (by decide)) (by decide))
        (okPair_of_not_mem h4)) (by decide)) (by decide)) (by decide))
      (okPair_of_not_mem h5)) (by decide)) (by decide)
  have hsh : kml_text dn hr n s e w =
      (lit0 ++ "<name>".toList ++ dn ++ "</name>".toList ++ lit1 ++
       "<href>".toList ++ hr ++ "</href>".toList ++ lit2) ++
      ("<LatLonBox>".toList ++
        ((lit3 ++ "<north>".toList ++ n ++ "</north>".toList ++ lit3 ++
          "<south>".toList ++ s ++ "</south>".toList ++ lit3 ++
          "<east>".toList ++ e ++ "</east>".toList ++ lit3) ++
          ("<west>".toList ++ (w ++ ("</west>".toList ++ lit7))))) := by
    simp [kml_text, List.append_assoc]
  unfold reextract_west
  rw [hamp]
  dsimp only
  rw [hsh]
  rw [split_at_tag "<LatLonBox>".toList rfl hA]
  dsimp only
  rw [grabText_at "<west>".toList "</west>".toList rfl rfl hA2 h6 hne]
  simp [decodeEnt_of_not_mem a6]

set_option maxRecDepth 16384 in
/-- Claim C5 counterexample: synthesis does no escaping, so the claimed
round-trip fails on markup-significant characters in three ways, each
mirroring what ElementTree does on the re-parse.  A display name
`<name>X</name>` yields the fragment `<name><name>X</name></name>`, whose
first `name` element has no character data before its child, so its text
reads back as `None`, not the original.  A display name `A&B` makes the
document ill-formed (bare ampersand), so the re-parse fails and nothing is
extracted.  A display name `A&amp;B` re-parses, but entity decoding returns
`A&B` — a different string, and the source applied no escaping that this
would be the round-trip of. -/
theorem c5_counterexample :
    reextract_name
        (kml_text "<name>X</name>".toList "overlay.png".toList "45.0".toList
          "44.0".toList "-120.0".toList "-121.0".toList) = none ∧
    reextract_name
        (kml_text "A&B".toList "overlay.png".toList "45.0".toList
          "44.0".toList "-120.0".toList "-121.0".toList) = none ∧
    reextract_name
        (kml_text "A&amp;B".toList "overlay.png".toList "45.0".toList
          "44.0".toList "-120.0".toList "-121.0".toList) =
      some "A&B".toList ∧
    some "A&B".toList ≠ some "A&amp;B".toList := by
  refine ⟨?_, ?_, ?_, ?_⟩ <;> decide

/-- Claim C5 (amended): for every record whose six fields are non-empty (the
record invariant of the data model) and contain neither `'<'` nor `'&'` (so
the unescaped interpolation happens to produce well-formed markup and no
entity decoding applies), re-reading the synthesized text the way
`parse_kml` does — ampersand well-formedness of the whole document, first
`name` element, first `href` element, coordinate children of the first
`LatLonBox`, character data up to the first `'<'`, entity-decoded — returns
exactly the original display name, image reference, and four bounding
coordinates. -/
theorem c5_amended (dn hr n s e w : List Char)
    (h1 : '<' ∉ dn) (h2 : '<' ∉ hr) (h3 : '<' ∉ n) (h4 : '<' ∉ s)
    (h5 : '<' ∉ e) (h6 : '<' ∉ w)
    (a1 : '&' ∉ dn) (a2 : '&' ∉ hr) (a3 : '&' ∉ n) (a4 : '&' ∉ s)
    (a5 : '&' ∉ e) (a6 : '&' ∉ w)
    (m1 : dn ≠ []) (m2 : hr ≠ []) (m3 : n ≠ []) (m4 : s ≠ [])
    (m5 : e ≠ []) (m6 : w ≠ []) :
    reextract_name (kml_text dn hr n s e w) = some dn ∧
    reextract_href (kml_text dn hr n s e w) = some hr ∧
    reextract_north (kml_text dn hr n s e w) = some n ∧
    reextract_south (kml_text dn hr n s e w) = some s ∧
    reextract_east (kml_text dn hr n s e w) = some e ∧
    reextract_west (kml_text dn hr n s e w) = some w :=
  ⟨reextract_name_clean dn hr n s e w h1 a1 a2 a3 a4 a5 a6 m1,
   reextract_href_clean dn hr n s e w h1 h2 a1 a2 a3 a4 a5 a6 m2,
   reextract_north_clean dn hr n s e w h1 h2 h3 a1 a2 a3 a4 a5 a6 m3,
   reextract_south_clean dn hr n s e w h1 h2 h3 h4 a1 a2 a3 a4 a5 a6 m4,
   reextract_east_clean dn hr n s e w h1 h2 h3 h4 h5 a1 a2 a3 a4 a5 a6 m5,
   reextract_west_clean dn hr n s e w h1 h2 h3 h4 h5 h6 a1 a2 a3 a4 a5 a6 m6⟩

set_option maxRecDepth 16384 in
/-- Witness for C5 (amended) at the scenario record. -/
theorem c5_amended_witness :
    reextract_name
        (kml_text "Topo A".toList "overlay.png".toList "45.0".toList
          "44.0".toList "-120.0".toList "-121.0".toList) =
      some "Topo A".toList ∧
    reextract_href
        (kml_text "Topo A".toList "overlay.png".toList "45.0".toList
          "44.0".toList "-120.0".toList "-121.0".toList) =
      some "overlay.png".toList ∧
    reextract_north
        (kml_text "Topo A".toList "overlay.png".toList "45.0".toList
          "44.0".toList "-120.0".toList "-121.0".toList) =
      some "45.0".toList ∧
    reextract_south
        (kml_text "Topo A".toList "overlay.png".toList "45.0".toList
          "44.0".toList "-120.0".toList "-121.0".toList) =
      some "44.0".toList ∧
    reextract_east
        (kml_text "Topo A".toList "overlay.png".toList "45.0".toList
          "44.0".toList "-120.0".toList "-121.0".toList) =
      some "-120.0".toList ∧
    reextract_west
        (kml_text "Topo A".toList "overlay.png".toList "45.0".toList
          "44.0".toList "-120.0".toList "-121.0".toList) =
      some "-121.0".toList :=
  c5_amended _ _ _ _ _ _ (by decide) (by decide) (by decide) (by decide)
    (by decide) (by decide) (by decide) (by decide) (by decide) (by decide)
    (by decide) (by decide) (by decide) (by decide) (by decide) (by decide)
    (by decide) (by decide)

/-- Claim C7: the synthesizer is a pure function of the record.  Writing the
cleaned document from the same fields out of any two scratch states and to
any two paths stores byte-identical text, namely `kml_text` applied to the
fields — the output depends on nothing but the record. -/
theorem c7_synthesis_deterministic (scr1 scr2 : Dir) (o1 o2 dn hr : List Char)
    (co : List Char × List Char × List Char × List Char) :
    lookupA (create_clean_kml scr1 o1 dn hr co) o1 =
      some (FData.text (kml_text dn hr co.1 co.2.1 co.2.2.1 co.2.2.2)) ∧
    lookupA (create_clean_kml scr1 o1 dn hr co) o1 =
      lookupA (create_clean_kml scr2 o2 dn hr co) o2 := by
  unfold create_clean_kml
  rw [lookupA_writeA_self, lookupA_writeA_self]
  exact ⟨rfl, rfl⟩

/-- Claim C8 counterexample: when the referenced image is itself named
`cleaned.kml`, `create_clean_kml` overwrites it in the scratch directory
before repackaging, so the output archive's second entry — stored under the
image's original relative name — contains the synthesized document text, not
the original image bytes (`IMG`). -/
theorem c8_counterexample :
    process_files
        [("box2.zip".toList, FData.zip [("t.kmz".toList, collideKmz)])] =
      { output := [("t.kmz".toList, FData.zip
          [(docKmlName, FData.text
              (kml_text "N".toList "cleaned.kml".toList "1".toList
                "2".toList "3".toList "4".toList)),
           ("cleaned.kml".toList, FData.text
              (kml_text "N".toList "cleaned.kml".toList "1".toList
                "2".toList "3".toList "4".toList))])],
        log := headerTxt ++ logLine "t.kmz".toList,
        err := none } ∧
    kml_text "N".toList "cleaned.kml".toList "1".toList "2".toList
        "3".toList "4".toList ≠ "IMG".toList :=
  ⟨rfl, by decide⟩

/-- Claim C8 (amended): every archive the loop writes to the output folder
has exactly two entries — the synthesized document under the fixed name
`doc.kml`, and a second entry under the image's original relative name; that
second entry holds the image's original content whenever the image is not
itself named `cleaned.kml` (the scratch name the synthesized document
overwrites). -/
theorem c8_amended (st : RunState) (nm : List Char) (data : FData)
    (n2 : List Char) (a : FData)
    (hout : (processItem st (nm, data)).output = st.output ++ [(n2, a)]) :
    ∃ es dn hr nv sv ev wv img,
      data = FData.zip es ∧ n2 = nm ∧
      a = FData.zip [(docKmlName, FData.text (kml_text dn hr nv sv ev wv)),
                     (hr, img)] ∧
      (hr ≠ cleanedName → lookupA (extractAll [] es) hr = some img) := by
  by_cases hk : endsKmz nm = true
  · cases data with
    | text t =>
        have hpi : processItem st (nm, FData.text t) =
            { st with err := some PyError.badZipFile } := by
          simp [processItem, hk]
        rw [hpi] at hout
        exact absurd hout (output_append_ne _ _)
    | xml x =>
        have hpi : processItem st (nm, FData.xml x) =
            { st with err := some PyError.badZipFile } := by
          simp [processItem, hk]
        rw [hpi] at hout
        exact absurd hout (output_append_ne _ _)
    | zip es =>
        cases hdoc : lookupA (extractAll [] es) docKmlName with
        | none =>
            have hpi : processItem st (nm, FData.zip es) = st := by
              simp [processItem, hk, hdoc]
            rw [hpi] at hout
            exact absurd hout (output_append_ne _ _)
        | some content =>
            cases hp : parse_kml content (extractAll [] es) with
            | error e =>
                have hpi : processItem st (nm, FData.zip es) =
                    { st with err := some e } := by
                  simp [processItem, hk, hdoc, hp]
                rw [hpi] at hout
                exact absurd hout (output_append_ne _ _)
            | ok o =>
                cases o with
                | none =>
                    have hpi : processItem st (nm, FData.zip es) = st := by
                      simp [processItem, hk, hdoc, hp]
                    rw [hpi] at hout
                    exact absurd hout (output_append_ne _ _)
                | some f =>
                    by_cases ht :
                        (truthy f.docName && truthy (some f.href)) = true
                    · have hC : lookupA (create_clean_kml (extractAll [] es)
                            cleanedName (optStr f.docName) f.href
                            (optStr f.north, optStr f.south, optStr f.east,
                             optStr f.west)) cleanedName =
                          some (FData.text (kml_text (optStr f.docName)
                            f.href (optStr f.north) (optStr f.south)
                            (optStr f.east) (optStr f.west))) :=
                        lookupA_writeA_self _ _ _
                      cases hI : lookupA (create_clean_kml (extractAll [] es)
                          cleanedName (optStr f.docName) f.href
                          (optStr f.north, optStr f.south, optStr f.east,
                           optStr f.west)) f.href with
                      | none =>
                          have hrep : repackage_kmz
                              (create_clean_kml (extractAll [] es) cleanedName
                                (optStr f.docName) f.href
                                (optStr f.north, optStr f.south, optStr f.east,
                                 optStr f.west)) f.href =
                              .error PyError.ioError := by
                            simp [repackage_kmz, hC, hI]
                          have hpi : processItem st (nm, FData.zip es) =
                              { st with err := some PyError.ioError } := by
                            simp [processItem, hk, hdoc, hp, ht, hrep]
                          rw [hpi] at hout
                          exact absurd hout (output_append_ne _ _)
                      | some img =>
                          have hrep : repackage_kmz
                              (create_clean_kml (extractAll [] es) cleanedName
                                (optStr f.docName) f.href
                                (optStr f.north, optStr f.south, optStr f.east,
                                 optStr f.west)) f.href =
                              .ok (FData.zip [(docKmlName, FData.text
                                  (kml_text (optStr f.docName) f.href
                                    (optStr f.north) (optStr f.south)
                                    (optStr f.east) (optStr f.west))),
                                (f.href, img)]) := by
                            simp [repackage_kmz, hC, hI]
                          have hpi : processItem st (nm, FData.zip es) =
                              { st with
                                output := st.output ++ [(nm, FData.zip
                                  [(docKmlName, FData.text
                                      (kml_text (optStr f.docName) f.href
                                        (optStr f.north) (optStr f.south)
                                        (optStr f.east) (optStr f.west))),
                                   (f.href, img)])],
                                log := st.log ++ logLine nm } := by
                            simp [processItem, hk, hdoc, hp, ht, hrep]
                          rw [hpi] at hout
                          obtain ⟨he1, he2⟩ :
                              nm = n2 ∧ FData.zip
                                [(docKmlName, FData.text
                                    (kml_text (optStr f.docName) f.href
                                      (optStr f.north) (optStr f.south)
                                      (optStr f.east) (optStr f.west))),
                                 (f.href, img)] = a := by
                            simpa using List.append_cancel_left hout
                          refine ⟨es, optStr f.docName, f.href, optStr f.north,
                            optStr f.south, optStr f.east, optStr f.west, img,
                            rfl, he1.symm, he2.symm, ?_⟩
                          intro hne
                          have hlk := lookupA_writeA_ne (extractAll [] es)
                            (FData.text (kml_text (optStr f.docName) f.href
                              (optStr f.north) (optStr f.south)
                              (optStr f.east) (optStr f.west))) hne
                          rw [← hlk]
                          exact hI
                    · have hpi : processItem st (nm, FData.zip es) = st := by
                        simp [processItem, hk, hdoc, hp, ht]
                      rw [hpi] at hout
                      exact absurd hout (output_append_ne _ _)
  · have hpi : processItem st (nm, data) = st := by
      simp [processItem, hk]
    rw [hpi] at hout
    exact absurd hout (output_append_ne _ _)

/-- Witness for C8 (amended) at the scenario archive processed through the
loop. -/
theorem c8_amended_witness :
    ∃ es dn hr nv sv ev wv img,
      sampleKmz = FData.zip es ∧
      "sample.kmz".toList = "sample.kmz".toList ∧
      FData.zip [(docKmlName, FData.text
          (kml_text "Topo A".toList "overlay.png".toList "45.0".toList
            "44.0".toList "-120.0".toList "-121.0".toList)),
        ("overlay.png".toList, FData.text "IMG".toList)] =
        FData.zip [(docKmlName, FData.text (kml_text dn hr nv sv ev wv)),
          (hr, img)] ∧
      (hr ≠ cleanedName → lookupA (extractAll [] es) hr = some img) :=
  c8_amended { output := [], log := headerTxt, err := none }
    "sample.kmz".toList sampleKmz "sample.kmz".toList
    (FData.zip [(docKmlName, FData.text
        (kml_text "Topo A".toList "overlay.png".toList "45.0".toList
          "44.0".toList "-120.0".toList "-121.0".toList)),
      ("overlay.png".toList, FData.text "IMG".toList)])
    (by rfl)

/-- Claim C9: a document that reaches the image-existence check (name,
overlay, and image reference present) whose referenced image is absent from
the extraction directory makes `parse_kml` return the skip triple, and the
driver leaves the run state untouched: no output archive, no log entry, no
error. -/
theorem c9_missing_image_skips (st : RunState) (nm : List Char)
    (es : List (List Char × FData)) (root nel go hel : Xml) (h : List Char)
    (hk : endsKmz nm = true)
    (hdoc : lookupA (extractAll [] es) docKmlName = some (FData.xml root))
    (hn : findIn "name".toList (childrenOf root) = some nel)
    (hg : findIn "GroundOverlay".toList (childrenOf root) = some go)
    (hh : findPath "Icon".toList "href".toList (childrenOf go) = some hel)
    (hht : textOf hel = some h)
    (himg : lookupA (extractAll [] es) h = none) :
    parse_kml (FData.xml root) (extractAll [] es) = .ok none ∧
    processItem st (nm, FData.zip es) = st := by
  have hp : parse_kml (FData.xml root) (extractAll [] es) = .ok none := by
    simp only [parse_kml, etParse, hn, hg, hh, hht, himg]
  exact ⟨hp, by simp [processItem, hk, hdoc, hp]⟩

/-- Witness for C9 at the archive whose image `gone.png` is absent. -/
theorem c9_witness :
    parse_kml (FData.xml noimgRoot)
        (extractAll [] [(docKmlName, FData.xml noimgRoot)]) = .ok none ∧
    processItem { output := [], log := headerTxt, err := none }
        ("x.kmz".toList, FData.zip [(docKmlName, FData.xml noimgRoot)]) =
      { output := [], log := headerTxt, err := none } :=
  c9_missing_image_skips _ _ _ _ _ _ _ _ (by decide) (by rfl) (by rfl)
    (by rfl) (by rfl) (by rfl) (by rfl)

/-- Claim C10: on every run the log starts with the fixed header line, and a
run that adds no output file (no inputs, or every item skipped) leaves the
log consisting of exactly the header. -/
theorem c10_log_header (script : List (List Char × FData)) :
    (∃ t, (process_files script).log = headerTxt ++ t) ∧
    ((process_files script).output = [] →
      (process_files script).log = headerTxt) := by
  cases hz : extractZipsAll script [] with
  | error e =>
      have heq : process_files script =
          { output := [], log := headerTxt, err := some e } := by
        simp [process_files, hz]
      rw [heq]
      exact ⟨⟨[], by simp⟩, fun _ => rfl⟩
  | ok temp =>
      have heq : process_files script =
          processLoop { output := [], log := headerTxt, err := none } temp := by
        simp [process_files, hz]
      rw [heq]
      rcases processLoop_grow temp
          { output := [], log := headerTxt, err := none } with ⟨t, l, h1, h2, h3⟩
      refine ⟨⟨l, h2⟩, fun hout => ?_⟩
      have ht : t = [] := by
        rw [h1] at hout
        simpa using hout
      rw [h2, h3 ht]
      simp

/-- Witness for C10 at the empty input set. -/
theorem c10_witness : (process_files []).log = headerTxt :=
  (c10_log_header []).2 (by rfl)
